import Mathlib

/-!
Verification of the donor-churn pipeline (`RetentionPredictor.py`,
`DonorChurnPredictor_CLI.py`).

The shallow embedding below translates the two core components:

* `build_snapshot_churn_dataset` — the leakage-free snapshot dataset
  builder.  Transaction dates are modelled as integers (days), amounts as
  `Option ℚ` (`none` models a NaN amount, which pandas keeps in the row
  count but skips in sums/std); a raw transaction's date is `Option ℤ`
  (`none` models an unparseable date, dropped by the builder).
* the feature-matrix encoder shared by `train_gradient_boosting_model`,
  `interactive_predict_from_csv` and `build_feature_matrix` — numeric
  columns filled with zero, categoricals one-hot encoded with an explicit
  missing-value indicator (`dummy_na=True`), numeric block first, and at
  inference time a reindex onto the persisted training schema.

Encoded column identifiers are modelled structurally (`ColId.dummy c v`
stands for the pandas column name `c ++ "_" ++ v`); on the four fixed
categorical feature names this naming is injective, so the structural
model is faithful.

The source stores `std_amt_past = hist.std(ddof=0)`, a square root of a
rational.  To stay in exact arithmetic the embedding carries
`var_amt_past`, the population variance that the source takes the square
root of; `std_amt_past` is determined by it, so every dependence or
equality statement about the standard deviation transfers verbatim.
-/

namespace HSM

/-- A raw ledger row: account identifier, possibly-unparseable date
(`none` = NaT after `pd.to_datetime(..., errors="coerce")`), possibly-NaN
amount. -/
structure RawTxn where
  account : Nat
  date : Option Int
  amount : Option Rat
deriving DecidableEq

/-- A cleaned transaction: the builder works on rows whose date resolved
(`tx = tx[tx[date_col].notna()]`). -/
structure Txn where
  account : Nat
  date : Int
  amount : Option Rat
deriving DecidableEq

/-- Parameters of `build_snapshot_churn_dataset`.  `snapshotFreqDays`
models the `"30D"` cadence string as a number of days. -/
structure Params where
  predictionWindowDays : Int
  snapshotFreqDays : Nat
  minHistoryDays : Int
  activeRecencyMax : Int
deriving DecidableEq

/-- One emitted snapshot example (one dict appended to `rows`).
`var_amt_past` is the population variance whose square root the source
stores as `std_amt_past`. -/
structure SnapRow where
  account : Nat
  snapshot_date : Int
  first_tx_date : Int
  last_tx_date : Int
  tenure_days : Int
  recency_days : Int
  n_txn_past : Nat
  sum_amt_past : Rat
  avg_amt_past : Rat
  var_amt_past : Rat
  churn_label : Nat
deriving DecidableEq

/-- Drop rows with unresolved dates (`tx = tx[tx[date_col].notna()]`). -/
def cleanTx (raw : List RawTxn) : List Txn :=
  raw.filterMap (fun t => t.date.map (fun d => ⟨t.account, d, t.amount⟩))

/-- Minimum of a list of dates, `none` on the empty list (pandas `.min()`
gives NaT there). -/
def foldMin? (l : List Int) : Option Int :=
  l.foldl (fun o d => match o with | none => some d | some m => some (min m d)) none

/-- Maximum of a list of dates, `none` on the empty list. -/
def foldMax? (l : List Int) : Option Int :=
  l.foldl (fun o d => match o with | none => some d | some m => some (max m d)) none

/-- The snapshot grid `pd.date_range(start, stop, freq)`: `start`,
`start+freq`, … while `≤ stop`; empty when `start > stop`. -/
def dateRange (start stop : Int) (freq : Nat) : List Int :=
  if stop < start then []
  else (List.range ((stop - start).toNat / freq + 1)).map
    (fun (k : Nat) => start + (freq : Int) * (k : Int))

/-- Past-only subset: `hist = df_acc[df_acc[date_col] <= snap_date]`. -/
def pastTxns (acc : List Txn) (s : Int) : List Txn :=
  acc.filter (fun t => t.date ≤ s)

/-- Future window subset:
`df_acc[(date > snap) & (date <= snap + window)]`. -/
def futureTxns (acc : List Txn) (s w : Int) : List Txn :=
  acc.filter (fun t => s < t.date && t.date ≤ s + w)

/-- The non-NaN amounts of a transaction list (pandas aggregations skip
NaN). -/
def amounts (l : List Txn) : List Rat :=
  l.filterMap (fun t => t.amount)

/-- Population variance (`ddof=0`) of a value list; `0` on the empty list
(only reachable when every amount in a multi-row history is NaN, a corner
no claim exercises — pandas would yield NaN there). -/
def popVar (vs : List Rat) : Rat :=
  if vs.length = 0 then 0
  else
    ((vs.map (fun x => (x - vs.sum / vs.length) * (x - vs.sum / vs.length))).sum) / vs.length

/-- The per-(account, snapshot date) body of the builder loop: `none`
models `continue` (no history yet, or the recency eligibility filter);
`some` is the appended example row. -/
def snapshotRow (P : Params) (a : Nat) (acc : List Txn) (s : Int) : Option SnapRow :=
  match foldMin? ((pastTxns acc s).map (fun t => t.date)),
        foldMax? ((pastTxns acc s).map (fun t => t.date)) with
  | some first, some last =>
    if P.activeRecencyMax < s - last then none
    else
      some
        { account := a
          snapshot_date := s
          first_tx_date := first
          last_tx_date := last
          tenure_days := s - first
          recency_days := s - last
          n_txn_past := (pastTxns acc s).length
          sum_amt_past := (amounts (pastTxns acc s)).sum
          avg_amt_past :=
            if 0 < (pastTxns acc s).length then
              (amounts (pastTxns acc s)).sum / ((pastTxns acc s).length : Rat)
            else 0
          var_amt_past :=
            if 1 < (pastTxns acc s).length then popVar (amounts (pastTxns acc s)) else 0
          churn_label := if (futureTxns acc s P.predictionWindowDays).isEmpty then 1 else 0 }
  | _, _ => none

/-- Iteration order of `tx.sort_values(date_col).groupby("Account Number")`:
the distinct account keys in ascending order. -/
def accountIds (tx : List Txn) : List Nat :=
  ((tx.map (fun t => t.account)).dedup).insertionSort (fun a b => a ≤ b)

/-- One account's transactions.  The source also sorts them by date
(line 250); every aggregate the builder computes is order-invariant, so
the sort is semantically inert and omitted. -/
def accountTxns (tx : List Txn) (a : Nat) : List Txn :=
  tx.filter (fun t => t.account == a)

/-- All example rows, accounts outer loop, snapshot dates inner loop. -/
def buildRows (tx : List Txn) (P : Params) (snaps : List Int) : List SnapRow :=
  (accountIds tx).flatMap (fun a => snaps.filterMap (snapshotRow P a (accountTxns tx a)))

/-- The pandas left merge `churn_df.merge(ret_small, on="Account Number",
how="left")`: a builder row with no demographic match is kept with null
demographics; a row with k matches is repeated k times. -/
def leftMerge {α : Type} (rows : List SnapRow) (demo : List (Nat × α)) :
    List (SnapRow × Option α) :=
  rows.flatMap (fun r =>
    match demo.filter (fun d => d.1 == r.account) with
    | [] => [(r, none)]
    | ms => ms.map (fun d => (r, some d.2)))

/-- Failure modes of the builder.  `emptyLedger` models the ValueError
`pd.date_range` raises when every date is NaT; the other two are the
builder's own `raise ValueError` statements. -/
inductive BuildError where
  | emptyLedger
  | insufficientSpan
  | noSnapshotRows
deriving DecidableEq

/-- The snapshot dataset builder `build_snapshot_churn_dataset`.  `demo`
is the `ret_small` demographic table (account id, payload). -/
def build_snapshot_churn_dataset {α : Type} (raw : List RawTxn) (demo : List (Nat × α))
    (P : Params) : Except BuildError (List (SnapRow × Option α)) :=
  match foldMin? ((cleanTx raw).map (fun t => t.date)),
        foldMax? ((cleanTx raw).map (fun t => t.date)) with
  | some minD, some maxD =>
    if maxD - P.predictionWindowDays ≤ minD + P.minHistoryDays then
      .error .insufficientSpan
    else if (buildRows (cleanTx raw) P
        (dateRange (minD + P.minHistoryDays) (maxD - P.predictionWindowDays)
          P.snapshotFreqDays)).isEmpty then
      .error .noSnapshotRows
    else
      .ok (leftMerge
        (buildRows (cleanTx raw) P
          (dateRange (minD + P.minHistoryDays) (maxD - P.predictionWindowDays)
            P.snapshotFreqDays))
        demo)
  | _, _ => .error .emptyLedger

/-- The rows of a successful builder run (empty on failure); used to state
concrete facts about builder output without binders. -/
def okRows {α : Type} (r : Except BuildError (List (SnapRow × Option α))) :
    List (SnapRow × Option α) :=
  match r with
  | .ok l => l
  | .error _ => []

/-! ## Feature-matrix encoder

Shared by `train_gradient_boosting_model` (training mode),
`interactive_predict_from_csv` and `build_feature_matrix` (inference
mode: the extra `X.reindex(columns=feature_columns, fill_value=0.0)`). -/

/-- The fixed numeric feature list of the source. -/
def NUMERIC_FEATURES : List String :=
  ["tenure_days", "recency_days", "n_txn_past", "sum_amt_past", "avg_amt_past", "std_amt_past"]

/-- The fixed categorical feature list of the source. -/
def CATEGORICAL_FEATURES : List String :=
  ["Primary State", "Gender", "Employer", "Groups"]

/-- A raw row table (a pandas DataFrame at the encoder's boundary):
its column set, row count, and the numeric/categorical reading of each
cell (`none` = NaN).  Cells are meaningful only for columns in `cols`. -/
structure RawTable where
  cols : List String
  nRows : Nat
  numCell : Nat → String → Option Rat
  catCell : Nat → String → Option String

/-- An encoded column identifier: `num n` is the numeric column `n`;
`dummy c (some v)` is the one-hot indicator pandas names `c_v`;
`dummy c none` is the `dummy_na=True` missing-value indicator `c_nan`. -/
inductive ColId where
  | num (name : String)
  | dummy (col : String) (val : Option String)
deriving DecidableEq

/-- Lexicographic comparison of character lists by code point — the
order Python's `str` comparison (and hence pandas category sorting)
uses. -/
def charListLe : List Char → List Char → Bool
  | [], _ => true
  | _ :: _, [] => false
  | c :: cs, d :: ds =>
    if c.toNat < d.toNat then true
    else if d.toNat < c.toNat then false
    else charListLe cs ds

/-- Code-point order on strings. -/
def strLe (a b : String) : Bool := charListLe a.data b.data

/-- Insert into a sorted string list. -/
def insertStr (v : String) : List String → List String
  | [] => [v]
  | w :: ws => if strLe v w then v :: w :: ws else w :: insertStr v ws

/-- Sort strings ascending by code point. -/
def sortStrs : List String → List String
  | [] => []
  | v :: vs => insertStr v (sortStrs vs)

/-- Configured numeric columns present in the table
(`[f for f in numeric_features if f in df.columns]`). -/
def numericPresent (t : RawTable) : List String :=
  NUMERIC_FEATURES.filter (fun c => t.cols.contains c)

/-- Configured categorical columns present in the table. -/
def categoricalPresent (t : RawTable) : List String :=
  CATEGORICAL_FEATURES.filter (fun c => t.cols.contains c)

/-- The distinct non-null values of a categorical column, in ascending
order — the category order `pd.get_dummies` derives for an object
column. -/
def colValues (t : RawTable) (c : String) : List String :=
  sortStrs (((List.range t.nRows).filterMap (fun i => t.catCell i c)).dedup)

/-- The one-hot block of `pd.get_dummies(df[categorical_features],
dummy_na=True)`: per categorical column in order, one indicator per
category, the NaN indicator last. -/
def dummyCols (t : RawTable) : List ColId :=
  (categoricalPresent t).flatMap
    (fun c => (colValues t c).map (fun v => ColId.dummy c (some v)) ++ [ColId.dummy c none])

/-- A purely numeric feature matrix with an ordered column schema.
`cell` is meaningful only on `cols`. -/
structure FeatureMatrix where
  cols : List ColId
  nRows : Nat
  cell : Nat → ColId → Rat

/-- Training-mode encoding: numeric block (`fillna(0.0)`) first, then the
one-hot block; its column list is the canonical schema. -/
def encodeTrain (t : RawTable) : FeatureMatrix where
  cols := (numericPresent t).map ColId.num ++ dummyCols t
  nRows := t.nRows
  cell := fun i c =>
    match c with
    | .num nm => (t.numCell i nm).getD 0
    | .dummy col v => if t.catCell i col = v then 1 else 0

/-- Inference-mode encoding: training-mode encoding followed by
`X.reindex(columns=feature_columns, fill_value=0.0)` — schema columns the
input did not produce are zero-filled, produced columns outside the
schema are dropped. -/
def encodeInfer (t : RawTable) (schema : List ColId) : FeatureMatrix :=
  { cols := schema
    nRows := t.nRows
    cell := fun i c => if c ∈ (encodeTrain t).cols then (encodeTrain t).cell i c else 0 }

/-! ## Prediction-time artifact loading -/

/-- Outcome of `interactive_predict_from_csv`: the missing-artifact early
return (which carries no prediction), the missing-input-CSV early
return, or a completed prediction run. -/
inductive PredictOutcome (π : Type) where
  | missingArtifact
  | inputFileNotFound (path : String)
  | predictions (probs : π)
deriving DecidableEq

/-- RetentionPredictor's `interactive_predict_from_csv`, with the file
system (`os.path.exists`), the persisted schema artifact
(`joblib.load(features_path)`), the fitted model's `predict_proba`, and
the CSV reader abstracted as parameters. -/
def interactive_predict_from_csv
    (fs : String → Bool)
    (loadFeatureCols : String → List ColId)
    (predictProba : FeatureMatrix → List Rat)
    (readCsv : String → RawTable)
    (modelPath featuresPath csvPath : String) : PredictOutcome (List Rat) :=
  if !fs modelPath || !fs featuresPath then .missingArtifact
  else if !fs csvPath then .inputFileNotFound csvPath
  else .predictions (predictProba (encodeInfer (readCsv csvPath) (loadFeatureCols featuresPath)))

/-- Failure modes of the CLI's `load_model_and_features` (each is a
`sys.exit(1)` carrying the path it reported). -/
inductive CliError where
  | modelNotFound (path : String)
  | featureFileNotFound (path : String)
deriving DecidableEq

/-- The CLI's `load_model_and_features`, file system and `joblib.load`
abstracted. -/
def load_model_and_features {μ : Type}
    (fs : String → Bool)
    (loadModel : String → μ)
    (loadFeatureCols : String → List ColId)
    (modelPath featuresPath : String) : Except CliError (μ × List ColId) :=
  if !fs modelPath then .error (.modelNotFound modelPath)
  else if !fs featuresPath then .error (.featureFileNotFound featuresPath)
  else .ok (loadModel modelPath, loadFeatureCols featuresPath)

/-! ## Derived notions used by the claim statements -/

/-- The six past-only feature values of a snapshot example (the source's
`std_amt_past` is the square root of `var_amt_past`). -/
def pastFeats (r : SnapRow) : Int × Int × Nat × Rat × Rat × Rat :=
  (r.tenure_days, r.recency_days, r.n_txn_past, r.sum_amt_past, r.avg_amt_past, r.var_amt_past)

/-- The snapshot grid a builder run uses (empty when the ledger has no
dated transaction). -/
def snapshotGrid (raw : List RawTxn) (P : Params) : List Int :=
  match foldMin? ((cleanTx raw).map (fun t => t.date)),
        foldMax? ((cleanTx raw).map (fun t => t.date)) with
  | some minD, some maxD =>
      dateRange (minD + P.minHistoryDays) (maxD - P.predictionWindowDays) P.snapshotFreqDays
  | _, _ => []

/-- A pair (account, snapshot date) meets eligibility when the account
occurs in the ledger, the date is on the snapshot grid, and the loop body
emits a row for it. -/
def eligible (raw : List RawTxn) (P : Params) (a : Nat) (s : Int) : Bool :=
  decide (a ∈ accountIds (cleanTx raw)) && decide (s ∈ snapshotGrid raw P) &&
    (snapshotRow P a (accountTxns (cleanTx raw) a) s).isSome

/-! ## Concrete fixtures for witnesses and counterexamples -/

def C1raw : List RawTxn := [⟨1, some 0, some 100⟩, ⟨1, some 200, some 50⟩]

def C1P : Params := ⟨90, 30, 90, 90⟩

def C1row : SnapRow := ⟨1, 90, 0, 0, 90, 90, 1, 100, 100, 0, 1⟩

/-- C5 fixture: ledger spanning exactly 180 days, so the snapshot-date
range is the single date 90. -/
def C5raw : List RawTxn := [⟨1, some 0, some 100⟩, ⟨1, some 180, some 50⟩]

def C5P : Params := ⟨90, 30, 90, 90⟩

/-- C6 fixture: the spec's concrete scenario taken literally — one
account, transactions on Jan 1 (day 0), Feb 1 (day 31), Mar 1 (day 59) of
a non-leap year, $100 each, and no further transactions. -/
def C6raw : List RawTxn :=
  [⟨1, some 0, some 100⟩, ⟨1, some 31, some 100⟩, ⟨1, some 59, some 100⟩]

/-- C6 parameters: `min_history_days=30`, `prediction_window_days=60`,
`snapshot_freq="30D"`, `active_recency_max=90`. -/
def C6P : Params := ⟨60, 30, 30, 90⟩

/-- C6 fixture: the same ledger extended by a second account's
transaction on Dec 31 (day 364), so the ledger really spans
Jan 1 – Dec 31. -/
def C6rawExt : List RawTxn := C6raw ++ [⟨2, some 364, some 25⟩]

/-- C4 fixture: a training table whose `Employer` column has values
{A, B}. -/
def C4train : RawTable :=
  { cols := ["Employer"]
    nRows := 2
    numCell := fun _ _ => none
    catCell := fun i _ => if i = 0 then some "A" else some "B" }

/-- C4 fixture: an inference table whose `Employer` column has values
{B, C}. -/
def C4infer : RawTable :=
  { cols := ["Employer"]
    nRows := 2
    numCell := fun _ _ => none
    catCell := fun i _ => if i = 0 then some "B" else some "C" }

/-- C4 fixture: the canonical schema persisted from the training table. -/
def C4schema : List ColId := (encodeTrain C4train).cols

/-- C9 fixture: a small mixed numeric/categorical table. -/
def C9table : RawTable :=
  { cols := ["tenure_days", "Employer"]
    nRows := 2
    numCell := fun i nm => if nm = "tenure_days" ∧ i = 0 then some 7 else none
    catCell := fun i _ => if i = 0 then some "A" else none }

def C2tx₁ : List Txn := [⟨1, 0, some 100⟩, ⟨1, 50, some 40⟩]

/-- C2 fixture: same past-of-day-50 transactions as `C2tx₁` in another
order, plus an extra transaction after the snapshot date. -/
def C2tx₂ : List Txn := [⟨1, 50, some 40⟩, ⟨1, 0, some 100⟩, ⟨1, 99, some 7⟩]

/-! ## Basic lemmas about the builder -/

theorem foldMin?_from_some_ne_none :
    ∀ (ds : List Int) (d₀ : Int),
      ds.foldl (fun o d => match o with | none => some d | some m => some (min m d))
        (some d₀) ≠ none := by
  intro ds
  induction ds with
  | nil => intro d₀ h; cases h
  | cons e es ih => intro d₀; simpa [List.foldl] using ih (min d₀ e)

theorem foldMin?_eq_none {l : List Int} : foldMin? l = none ↔ l = [] := by
  constructor
  · intro h
    cases l with
    | nil => rfl
    | cons d ds =>
      exact absurd (by simpa [foldMin?] using h) (foldMin?_from_some_ne_none ds d)
  · intro h; subst h; rfl

/-- Structure of a successfully produced snapshot example. -/
theorem snapshotRow_eq_some {P : Params} {a : Nat} {acc : List Txn} {s : Int} {r : SnapRow}
    (h : snapshotRow P a acc s = some r) :
    pastTxns acc s ≠ [] ∧
    r.account = a ∧
    r.snapshot_date = s ∧
    r.recency_days ≤ P.activeRecencyMax ∧
    r.n_txn_past = (pastTxns acc s).length ∧
    r.sum_amt_past = (amounts (pastTxns acc s)).sum ∧
    r.avg_amt_past =
      (if 0 < (pastTxns acc s).length then
        (amounts (pastTxns acc s)).sum / ((pastTxns acc s).length : Rat)
      else 0) ∧
    (r.churn_label = 1 ↔ futureTxns acc s P.predictionWindowDays = []) := by
  unfold snapshotRow at h
  split at h
  case _ first last hmin hmax =>
    have hne : pastTxns acc s ≠ [] := by
      intro hnil
      rw [hnil] at hmin
      simp [foldMin?] at hmin
    split at h
    · exact absurd h (by simp)
    case _ hrec =>
      have hr := Option.some.inj h
      subst hr
      refine ⟨hne, rfl, rfl, ?_, rfl, rfl, rfl, ?_⟩
      · show s - last ≤ P.activeRecencyMax
        omega
      by_cases hf : (futureTxns acc s P.predictionWindowDays).isEmpty
      · simp [hf, List.isEmpty_iff.mp hf]
      · simp only [hf, if_false]
        constructor
        · intro h01; cases h01
        · intro hnil; exact absurd (by simp [hnil] : (futureTxns acc s P.predictionWindowDays).isEmpty = true) hf
  case _ =>
    exact absurd h (by simp)

/-- Membership in the flat builder row list. -/
theorem mem_buildRows {tx : List Txn} {P : Params} {snaps : List Int} {b : SnapRow} :
    b ∈ buildRows tx P snaps ↔
      ∃ a ∈ accountIds tx, ∃ s ∈ snaps, snapshotRow P a (accountTxns tx a) s = some b := by
  simp [buildRows, List.mem_flatMap, List.mem_filterMap]

/-- Every merged row's builder part is one of the builder rows. -/
theorem fst_mem_of_mem_leftMerge {α : Type} {rows : List SnapRow} {demo : List (Nat × α)}
    {r : SnapRow × Option α} (h : r ∈ leftMerge rows demo) : r.1 ∈ rows := by
  unfold leftMerge at h
  rcases List.mem_flatMap.mp h with ⟨b, hb, hr⟩
  revert hr
  split
  · intro hr
    have : r = (b, none) := by simpa using hr
    rw [this]
    exact hb
  · intro hr
    rcases List.mem_map.mp hr with ⟨d, _, hd⟩
    rw [← hd]
    exact hb

/-- A successful builder run is the left merge of its flat row list, for
a grid whose endpoints are the cleaned ledger's date extremes. -/
theorem build_ok_elim {α : Type} {raw : List RawTxn} {demo : List (Nat × α)} {P : Params}
    {out : List (SnapRow × Option α)}
    (hok : build_snapshot_churn_dataset raw demo P = .ok out) :
    ∃ minD maxD,
      foldMin? ((cleanTx raw).map (fun t => t.date)) = some minD ∧
      foldMax? ((cleanTx raw).map (fun t => t.date)) = some maxD ∧
      out = leftMerge
        (buildRows (cleanTx raw) P
          (dateRange (minD + P.minHistoryDays) (maxD - P.predictionWindowDays)
            P.snapshotFreqDays))
        demo := by
  unfold build_snapshot_churn_dataset at hok
  split at hok
  case _ minD maxD hmin hmax =>
    split at hok
    · exact absurd hok (by simp)
    · split at hok
      · exact absurd hok (by simp)
      · exact ⟨minD, maxD, hmin, hmax, (Except.ok.inj hok).symm⟩
  case _ =>
    exact absurd hok (by simp)

/-! ## Claim theorems: label, eligibility, aggregation guard -/

/-- C1: for every emitted snapshot example, `churn_label = 1` iff the
account has zero transactions with date in
`(snapshot_date, snapshot_date + prediction_window_days]`; the window is
exclusive-left (a transaction exactly on the snapshot date is past, so it
cannot force the label to 0) and inclusive-right (a transaction exactly
at `snapshot_date + prediction_window_days` forces the label to 0). -/
theorem churn_label_correct {α : Type} {raw : List RawTxn} {demo : List (Nat × α)} {P : Params}
    {out : List (SnapRow × Option α)}
    (hok : build_snapshot_churn_dataset raw demo P = .ok out)
    {r : SnapRow × Option α} (hr : r ∈ out) :
    r.1.churn_label = 1 ↔
      ∀ t ∈ cleanTx raw, t.account = r.1.account →
        ¬ (r.1.snapshot_date < t.date ∧
           t.date ≤ r.1.snapshot_date + P.predictionWindowDays) := by
  obtain ⟨minD, maxD, hmin, hmax, hout⟩ := build_ok_elim hok
  subst hout
  obtain ⟨a, ha, s, hs, hsnap⟩ := mem_buildRows.mp (fst_mem_of_mem_leftMerge hr)
  obtain ⟨hne, racc, rsnap, _, _, _, _, hlab⟩ := snapshotRow_eq_some hsnap
  rw [racc, rsnap, hlab]
  unfold futureTxns accountTxns
  rw [List.filter_eq_nil_iff]
  constructor
  · intro h t ht hacc hrange
    exact h t (List.mem_filter.mpr ⟨ht, by simpa using hacc⟩) (by simpa using hrange)
  · intro h t ht hcond
    have ht' := List.mem_filter.mp ht
    exact h t ht'.1 (by simpa using ht'.2) (by simpa using hcond)

/-- Helper: the concrete builder run shared by several witnesses. -/
theorem C1build_eq :
    build_snapshot_churn_dataset C1raw ([] : List (Nat × Unit)) C1P = .ok [(C1row, none)] := by
  norm_num [build_snapshot_churn_dataset, cleanTx, foldMin?, foldMax?, dateRange, buildRows,
    accountIds, accountTxns, snapshotRow, pastTxns, futureTxns, amounts, popVar, leftMerge,
    C1raw, C1P, C1row, List.insertionSort, List.orderedInsert, List.range_succ, List.filterMap]

theorem churn_label_correct_witness :
    C1row.churn_label = 1 ↔
      ∀ t ∈ cleanTx C1raw, t.account = C1row.account →
        ¬ (C1row.snapshot_date < t.date ∧
           t.date ≤ C1row.snapshot_date + C1P.predictionWindowDays) :=
  @churn_label_correct Unit C1raw [] C1P [(C1row, none)] C1build_eq (C1row, none) (List.mem_singleton.mpr rfl)

/-- C3: no emitted example has `recency_days > active_recency_max` — the
eligibility filter at line 270 skips such snapshots. -/
theorem recency_eligibility {α : Type} {raw : List RawTxn} {demo : List (Nat × α)} {P : Params}
    {out : List (SnapRow × Option α)}
    (hok : build_snapshot_churn_dataset raw demo P = .ok out)
    {r : SnapRow × Option α} (hr : r ∈ out) :
    r.1.recency_days ≤ P.activeRecencyMax := by
  obtain ⟨minD, maxD, hmin, hmax, hout⟩ := build_ok_elim hok
  subst hout
  obtain ⟨a, ha, s, hs, hsnap⟩ := mem_buildRows.mp (fst_mem_of_mem_leftMerge hr)
  exact (snapshotRow_eq_some hsnap).2.2.2.1

theorem recency_eligibility_witness : C1row.recency_days ≤ C1P.activeRecencyMax :=
  @recency_eligibility Unit C1raw [] C1P [(C1row, none)] C1build_eq (C1row, none) (List.mem_singleton.mpr rfl)

/-- C10: every emitted row aggregates a non-empty past subset, so
`n_txn_past ≥ 1`, the zero branch of the division guard is never taken,
and `avg_amt_past` is exactly `sum_amt_past / n_txn_past`. -/
theorem n_txn_past_pos_and_avg {α : Type} {raw : List RawTxn} {demo : List (Nat × α)}
    {P : Params} {out : List (SnapRow × Option α)}
    (hok : build_snapshot_churn_dataset raw demo P = .ok out)
    {r : SnapRow × Option α} (hr : r ∈ out) :
    1 ≤ r.1.n_txn_past ∧
    r.1.avg_amt_past = r.1.sum_amt_past / (r.1.n_txn_past : Rat) := by
  obtain ⟨minD, maxD, hmin, hmax, hout⟩ := build_ok_elim hok
  subst hout
  obtain ⟨a, ha, s, hs, hsnap⟩ := mem_buildRows.mp (fst_mem_of_mem_leftMerge hr)
  obtain ⟨hne, _, _, _, hn, hsum, havg, _⟩ := snapshotRow_eq_some hsnap
  have hpos : 0 < (pastTxns (accountTxns (cleanTx raw) a) s).length :=
    List.length_pos.mpr hne
  constructor
  · rw [hn]; omega
  · rw [havg, if_pos hpos, hn, hsum]

theorem n_txn_past_pos_and_avg_witness :
    1 ≤ C1row.n_txn_past ∧
    C1row.avg_amt_past = C1row.sum_amt_past / (C1row.n_txn_past : Rat) :=
  @n_txn_past_pos_and_avg Unit C1raw [] C1P [(C1row, none)] C1build_eq (C1row, none) (List.mem_singleton.mpr rfl)

/-! ## Claim theorems: data-insufficiency error (C5) -/

/-- C5 counterexample: for a ledger spanning days 0–180 with
`min_history_days = 90` and `prediction_window_days = 90`, the
snapshot-date range is `[90, 90]` — it contains a date, so the claim says
snapshot generation proceeds — yet the builder raises the
data-insufficiency error, because the source tests `start >= end`, not
`start > end`. -/
theorem insufficiency_error_countereg :
    foldMin? ((cleanTx C5raw).map (fun t => t.date)) = some 0 ∧
    foldMax? ((cleanTx C5raw).map (fun t => t.date)) = some 180 ∧
    (0 : Int) + C5P.minHistoryDays ≤ 180 - C5P.predictionWindowDays ∧
    build_snapshot_churn_dataset C5raw ([] : List (Nat × Unit)) C5P =
      .error .insufficientSpan :=
  ⟨rfl, rfl, by norm_num [C5P], rfl⟩

/-- C5 (amended): for a ledger with at least one dated transaction, the
builder raises the data-insufficiency error exactly when
`max_date − prediction_window_days ≤ min_date + min_history_days`, i.e.
when the snapshot-date range is empty, inverted, or contains exactly one
date; generation proceeds exactly when the range contains at least two
distinct endpoints. -/
theorem insufficiency_error_iff {α : Type} (raw : List RawTxn) (demo : List (Nat × α))
    (P : Params) (minD maxD : Int)
    (hmin : foldMin? ((cleanTx raw).map (fun t => t.date)) = some minD)
    (hmax : foldMax? ((cleanTx raw).map (fun t => t.date)) = some maxD) :
    build_snapshot_churn_dataset raw demo P = .error .insufficientSpan ↔
      maxD - P.predictionWindowDays ≤ minD + P.minHistoryDays := by
  by_cases hc : maxD - P.predictionWindowDays ≤ minD + P.minHistoryDays
  · simp only [build_snapshot_churn_dataset, hmin, hmax, if_pos hc]
    simpa using hc
  · simp only [build_snapshot_churn_dataset, hmin, hmax, if_neg hc]
    split
    · simpa using hc
    · simpa using hc

theorem insufficiency_error_iff_witness :
    (build_snapshot_churn_dataset C5raw ([] : List (Nat × Unit)) C5P =
        .error .insufficientSpan ↔
      (180 : Int) - C5P.predictionWindowDays ≤ 0 + C5P.minHistoryDays) :=
  insufficiency_error_iff C5raw [] C5P 0 180 rfl rfl

/-! ## Claim theorems: the concrete three-transaction scenario (C6) -/

/-- C6 counterexample: on the ledger of a single account with exactly the
three $100 transactions of the scenario, the builder emits nothing at all
— the ledger spans only days 0–59, so with `min_history_days = 30` and
`prediction_window_days = 60` the span check fails and the
data-insufficiency error is raised; in particular no snapshot example at
Mar 1 (day 59) with the claimed feature values exists. -/
theorem concrete_scenario_countereg :
    build_snapshot_churn_dataset C6raw ([] : List (Nat × Unit)) C6P =
      .error .insufficientSpan :=
  rfl

set_option maxHeartbeats 3200000 in
/-- C6 (amended): with the ledger extended by a second account's Dec 31
transaction — the minimal change making it actually span Jan 1 – Dec 31 —
the builder emits a snapshot example for the account at day 60 (Mar 2,
the grid point nearest Mar 1: the grid is day 30 + 30k and skips day 59)
with `tenure_days = 60`, `recency_days = 1`, `n_txn_past = 3`,
`sum_amt_past = 300`, `avg_amt_past = 100`, and `churn_label = 1`. -/
theorem concrete_scenario_amended :
    (⟨1, 60, 0, 59, 60, 1, 3, 300, 100, 0, 1⟩, (none : Option Unit)) ∈
      okRows (build_snapshot_churn_dataset C6rawExt ([] : List (Nat × Unit)) C6P) := by
  norm_num [build_snapshot_churn_dataset, okRows, cleanTx, foldMin?, foldMax?, dateRange,
    buildRows, accountIds, accountTxns, snapshotRow, pastTxns, futureTxns, amounts, popVar,
    leftMerge, C6raw, C6rawExt, C6P, List.insertionSort, List.orderedInsert, List.range_succ,
    List.filterMap]

/-! ## Permutation invariance of the past-only aggregates (for C2) -/

theorem foldl_perm_of_rcomm {β α : Type} {f : β → α → β}
    (hf : ∀ b a₁ a₂, f (f b a₁) a₂ = f (f b a₂) a₁) {l₁ l₂ : List α} (h : l₁.Perm l₂) :
    ∀ b, l₁.foldl f b = l₂.foldl f b := by
  induction h with
  | nil => intro b; rfl
  | cons x _ ih => intro b; simpa using ih (f b x)
  | swap x y l => intro b; simp [List.foldl, hf]
  | trans _ _ ih₁ ih₂ => intro b; rw [ih₁ b, ih₂ b]

theorem foldMin?_perm {l₁ l₂ : List Int} (h : l₁.Perm l₂) : foldMin? l₁ = foldMin? l₂ :=
  foldl_perm_of_rcomm
    (fun o d₁ d₂ => by
      cases o <;> simp [min_comm, min_assoc, min_left_comm])
    h none

theorem foldMax?_perm {l₁ l₂ : List Int} (h : l₁.Perm l₂) : foldMax? l₁ = foldMax? l₂ :=
  foldl_perm_of_rcomm
    (fun o d₁ d₂ => by
      cases o <;> simp [max_comm, max_assoc, max_left_comm])
    h none

theorem popVar_perm {vs₁ vs₂ : List Rat} (h : vs₁.Perm vs₂) : popVar vs₁ = popVar vs₂ := by
  unfold popVar
  rw [h.length_eq, h.sum_eq]
  by_cases h0 : vs₂.length = 0
  · rw [if_pos h0, if_pos h0]
  · rw [if_neg h0, if_neg h0, (h.map _).sum_eq]

/-- Congruence core of C2: the emission decision and the six past-only
feature values of the loop body depend only on the past transactions of
the account, up to reordering. -/
theorem snapshotRow_past_congr (P : Params) (a : Nat) (s : Int) {acc₁ acc₂ : List Txn}
    (h : (pastTxns acc₁ s).Perm (pastTxns acc₂ s)) :
    Option.map pastFeats (snapshotRow P a acc₁ s)
      = Option.map pastFeats (snapshotRow P a acc₂ s) := by
  have hmin := foldMin?_perm (h.map (fun t => t.date))
  have hmax := foldMax?_perm (h.map (fun t => t.date))
  have hlen := h.length_eq
  have hsum := (h.filterMap (fun t => t.amount)).sum_eq
  have hvar := popVar_perm (h.filterMap (fun t => t.amount))
  unfold snapshotRow
  rw [← hmin, ← hmax]
  cases e₁ : foldMin? ((pastTxns acc₁ s).map (fun t => t.date)) with
  | none => rfl
  | some first =>
    cases e₂ : foldMax? ((pastTxns acc₁ s).map (fun t => t.date)) with
    | none => rfl
    | some last =>
      dsimp only
      by_cases hrec : P.activeRecencyMax < s - last
      · rw [if_pos hrec, if_pos hrec]
      · rw [if_neg hrec, if_neg hrec]
        simp only [Option.map_some, pastFeats, amounts]
        rw [hlen, hsum, hvar]
        simp [pastFeats]

/-- C2: the six past-only features (and the emission decision itself)
of a snapshot example are functions of the account's transactions dated
at or before the snapshot date alone — two ledgers agreeing (up to
order) on those transactions produce identical `tenure_days`,
`recency_days`, `n_txn_past`, `sum_amt_past`, `avg_amt_past` and
`std_amt_past` (the latter via its square, `var_amt_past`); transactions
strictly after the snapshot date contribute nothing. -/
theorem past_only_features (P : Params) (a : Nat) (s : Int) (tx₁ tx₂ : List Txn)
    (h : (pastTxns (accountTxns tx₁ a) s).Perm (pastTxns (accountTxns tx₂ a) s)) :
    Option.map pastFeats (snapshotRow P a (accountTxns tx₁ a) s)
      = Option.map pastFeats (snapshotRow P a (accountTxns tx₂ a) s) :=
  snapshotRow_past_congr P a s h

theorem past_only_features_witness :
    Option.map pastFeats (snapshotRow ⟨90, 30, 90, 90⟩ 1 (accountTxns C2tx₁ 1) 50)
      = Option.map pastFeats (snapshotRow ⟨90, 30, 90, 90⟩ 1 (accountTxns C2tx₂ 1) 50) :=
  past_only_features ⟨90, 30, 90, 90⟩ 1 50 C2tx₁ C2tx₂ (by decide)

/-! ## Counting lemmas (for C7) -/

theorem accountIds_nodup (tx : List Txn) : (accountIds tx).Nodup :=
  (List.perm_insertionSort _ _).nodup_iff.mpr (List.nodup_dedup _)

theorem dateRange_nodup {start stop : Int} {freq : Nat} (hf : 0 < freq) :
    (dateRange start stop freq).Nodup := by
  unfold dateRange
  split
  · exact List.nodup_nil
  · have hinj : Function.Injective (fun k : Nat => start + (freq : Int) * (k : Int)) := by
      intro k₁ k₂ hk
      simp only at hk
      have h1 : (freq : Int) * k₁ = (freq : Int) * k₂ := add_left_cancel hk
      have hf' : (freq : Int) ≠ 0 := by exact_mod_cast hf.ne'
      exact_mod_cast mul_left_cancel₀ hf' h1
    exact List.Nodup.map hinj (List.nodup_range _)

theorem countP_filterMap_nodup {α β : Type} [DecidableEq α] {g : α → Option β} {p : β → Bool}
    {x : α} (hchar : ∀ a b, g a = some b → (p b = true ↔ a = x)) :
    ∀ {l : List α}, l.Nodup →
      (l.filterMap g).countP p = if x ∈ l ∧ (g x).isSome then 1 else 0 := by
  intro l
  induction l with
  | nil => intro _; simp
  | cons a l ih =>
    intro hnd
    have hnd' := List.nodup_cons.mp hnd
    rw [List.filterMap_cons]
    cases hga : g a with
    | none =>
      rw [ih hnd'.2]
      by_cases hx : x = a
      · subst hx
        simp [hga, hnd'.1]
      · simp [List.mem_cons, hx]
    | some b =>
      rw [List.countP_cons, ih hnd'.2]
      by_cases hx : x = a
      · subst hx
        have hp : p b = true := (hchar _ _ hga).mpr rfl
        simp [hga, hp, hnd'.1]
      · have hp : p b = false := by
          rcases Bool.eq_false_or_eq_true (p b) with hpb | hpb
          · exact absurd ((hchar _ _ hga).mp hpb).symm hx
          · exact hpb
        simp [List.mem_cons, hx, hp]

theorem sum_map_ite_nodup {a v : Nat} :
    ∀ {l : List Nat}, l.Nodup →
      (l.map (fun x => if x = a then v else 0)).sum = if a ∈ l then v else 0 := by
  intro l
  induction l with
  | nil => intro _; simp
  | cons b l ih =>
    intro hl
    have hnd := List.nodup_cons.mp hl
    rw [List.map_cons, List.sum_cons, ih hnd.2]
    by_cases hb : b = a
    · subst hb
      simp [hnd.1]
    · simp [List.mem_cons, hb, Ne.symm hb]

/-- Exactly one builder row carries a given (account, snapshot date) pair
when that pair is eligible, and none otherwise. -/
theorem countP_buildRows (tx : List Txn) (P : Params) (snaps : List Int)
    (hs : snaps.Nodup) (a : Nat) (s : Int) :
    (buildRows tx P snaps).countP (fun b => b.account == a && b.snapshot_date == s) =
      if a ∈ accountIds tx ∧ s ∈ snaps ∧ (snapshotRow P a (accountTxns tx a) s).isSome
      then 1 else 0 := by
  unfold buildRows
  rw [List.countP_flatMap]
  have hmap : (accountIds tx).map
        ((List.countP fun b => b.account == a && b.snapshot_date == s) ∘
          fun a' => snaps.filterMap (snapshotRow P a' (accountTxns tx a'))) =
      (accountIds tx).map
        (fun a' => if a' = a
          then (if s ∈ snaps ∧ (snapshotRow P a (accountTxns tx a) s).isSome then 1 else 0)
          else 0) := by
    refine List.map_congr_left ?_
    intro a' _
    by_cases ha' : a' = a
    · subst ha'
      rw [if_pos rfl]
      refine countP_filterMap_nodup ?_ hs
      intro s' b hb
      obtain ⟨_, hacc, hdate, _⟩ := snapshotRow_eq_some hb
      simp [hacc, hdate]
    · rw [if_neg ha']
      refine List.countP_eq_zero.mpr ?_
      intro b hb
      rcases List.mem_filterMap.mp hb with ⟨s', _, hb'⟩
      obtain ⟨_, hacc, _, _⟩ := snapshotRow_eq_some hb'
      simp [hacc, ha']
  rw [hmap, sum_map_ite_nodup (accountIds_nodup tx)]
  by_cases ha : a ∈ accountIds tx
  · simp [ha]
  · simp [ha]

theorem filter_key_eq_find?_toList {α : Type} :
    ∀ {demo : List (Nat × α)}, (demo.map Prod.fst).Nodup → ∀ (k : Nat),
      demo.filter (fun d => d.1 == k) = (demo.find? (fun d => d.1 == k)).toList := by
  intro demo
  induction demo with
  | nil => intro _ k; rfl
  | cons d ds ih =>
    intro hnd k
    rw [List.map_cons] at hnd
    have hnd' := List.nodup_cons.mp hnd
    rw [List.filter_cons, List.find?_cons]
    by_cases hd : (d.1 == k) = true
    · rw [if_pos hd, hd]
      have hds : ds.filter (fun e => e.1 == k) = [] := by
        refine List.filter_eq_nil_iff.mpr ?_
        intro e he hek
        exact hnd'.1 (by
          have : e.1 = d.1 := by
            have h1 : e.1 = k := by simpa using hek
            have h2 : d.1 = k := by simpa using hd
            rw [h1, h2]
          rw [← this]
          exact List.mem_map.mpr ⟨e, he, rfl⟩)
      rw [hds]
      rfl
    · rw [if_neg hd, Bool.not_eq_true] at *
      rw [hd]
      exact ih hnd'.2 k

/-- With at most one demographic row per account, the left merge keeps
each builder row exactly once, attaching that account's demographics when
present and null demographics when absent. -/
theorem leftMerge_eq_map_of_nodup_keys {α : Type} {demo : List (Nat × α)}
    (hnd : (demo.map Prod.fst).Nodup) :
    ∀ (rows : List SnapRow),
      leftMerge rows demo =
        rows.map (fun r => (r, (demo.find? (fun d => d.1 == r.account)).map Prod.snd)) := by
  intro rows
  induction rows with
  | nil => rfl
  | cons r rs ih =>
    have hstep : leftMerge (r :: rs) demo =
        (match demo.filter (fun d => d.1 == r.account) with
          | [] => [(r, none)]
          | ms => ms.map (fun d => (r, some d.2))) ++ leftMerge rs demo := by
      simp [leftMerge]
    rw [hstep, ih, List.map_cons, filter_key_eq_find?_toList hnd]
    cases demo.find? (fun d => d.1 == r.account) with
    | none => rfl
    | some d => rfl

/-! ## Claim theorems: one row per eligible pair and the left join (C7) -/

/-- C7 counterexample: with a demographic table holding two rows for
account 1, the pandas left merge duplicates every matching builder row —
the eligible pair (account 1, day 90) appears in two output rows, not
exactly one, although the transaction ledger and eligibility are
unchanged. -/
theorem one_row_per_pair_countereg :
    eligible C1raw C1P 1 90 = true ∧
    (okRows (build_snapshot_churn_dataset C1raw [(1, "x"), (1, "y")] C1P)).countP
      (fun r => r.1.account == 1 && r.1.snapshot_date == 90) = 2 :=
  ⟨rfl, rfl⟩

/-- C7 (amended): provided the demographic source has at most one row per
account id, the builder's output has exactly one row per eligible
(account, snapshot date) pair; the demographic merge is a left join that
never drops a builder row (an account absent from the demographic source
keeps its row with null demographics) and never alters a builder-computed
column. -/
theorem one_row_per_eligible_pair {α : Type} {raw : List RawTxn} {demo : List (Nat × α)}
    {P : Params} {out : List (SnapRow × Option α)}
    (hfreq : 0 < P.snapshotFreqDays)
    (hkeys : (demo.map Prod.fst).Nodup)
    (hok : build_snapshot_churn_dataset raw demo P = .ok out) :
    (∀ r ∈ out, r.2 = (demo.find? (fun d => d.1 == r.1.account)).map Prod.snd) ∧
    out.map Prod.fst = buildRows (cleanTx raw) P (snapshotGrid raw P) ∧
    ∀ a s, out.countP (fun r => r.1.account == a && r.1.snapshot_date == s) =
      if eligible raw P a s then 1 else 0 := by
  obtain ⟨minD, maxD, hmin, hmax, hout⟩ := build_ok_elim hok
  have hgrid : snapshotGrid raw P =
      dateRange (minD + P.minHistoryDays) (maxD - P.predictionWindowDays)
        P.snapshotFreqDays := by
    unfold snapshotGrid
    rw [hmin, hmax]
  rw [← hgrid] at hout
  subst hout
  rw [leftMerge_eq_map_of_nodup_keys hkeys]
  refine ⟨?_, ?_, ?_⟩
  · intro r hr
    rcases List.mem_map.mp hr with ⟨b, _, hbr⟩
    rw [← hbr]
  · rw [List.map_map]
    exact List.map_id' _
  · intro a s
    rw [List.countP_map]
    have hcomp : ((fun r : SnapRow × Option α => r.1.account == a && r.1.snapshot_date == s) ∘
        (fun r => (r, (demo.find? (fun d => d.1 == r.account)).map Prod.snd)))
        = fun b : SnapRow => b.account == a && b.snapshot_date == s := rfl
    rw [hcomp, countP_buildRows _ _ _ (hgrid ▸ dateRange_nodup hfreq) a s]
    by_cases he : eligible raw P a s
    · rw [if_pos he]
      rw [if_pos (by simpa [eligible, and_assoc] using he)]
    · rw [if_neg he]
      rw [if_neg (by simpa [eligible, and_assoc] using he)]

/-- Helper: the concrete builder run used by the C7 witness. -/
theorem C7build_eq :
    build_snapshot_churn_dataset C1raw [(1, "x")] C1P = .ok [(C1row, some "x")] := by
  norm_num [build_snapshot_churn_dataset, cleanTx, foldMin?, foldMax?, dateRange, buildRows,
    accountIds, accountTxns, snapshotRow, pastTxns, futureTxns, amounts, popVar, leftMerge,
    C1raw, C1P, C1row, List.insertionSort, List.orderedInsert, List.range_succ, List.filterMap]

theorem one_row_per_eligible_pair_witness :
    ([(C1row, some "x")] : List (SnapRow × Option String)).countP
      (fun r => r.1.account == 1 && r.1.snapshot_date == 90) =
      if eligible C1raw C1P 1 90 then 1 else 0 :=
  (one_row_per_eligible_pair (by decide) (by decide) C7build_eq).2.2 1 90

/-! ## Claim theorems: encoder schema conformance and determinism (C4, C9) -/

/-- C4: inference-mode encoding against a fixed schema yields exactly the
schema's columns in the schema's order, whatever the input's categorical
cardinality; schema columns the input did not produce (one-hot indicators
of categories unseen at inference included) are zero-filled, produced
columns keep their encoded values, and produced columns outside the
schema never appear in the output. -/
theorem schema_conformance (t : RawTable) (schema : List ColId) :
    (encodeInfer t schema).cols = schema ∧
    (∀ c, c ∈ schema → c ∉ (encodeTrain t).cols →
      ∀ i, (encodeInfer t schema).cell i c = 0) ∧
    (∀ c, c ∈ (encodeInfer t schema).cols ↔ c ∈ schema) ∧
    (∀ c, c ∈ (encodeTrain t).cols →
      ∀ i, (encodeInfer t schema).cell i c = (encodeTrain t).cell i c) := by
  refine ⟨rfl, ?_, fun c => Iff.rfl, ?_⟩
  · intro c _ hc i
    simp [encodeInfer, hc]
  · intro c hc i
    simp [encodeInfer, hc]

theorem schema_conformance_witness :
    (encodeInfer C4infer C4schema).cols = C4schema ∧
    (∀ i, (encodeInfer C4infer C4schema).cell i (ColId.dummy "Employer" (some "A")) = 0) ∧
    ColId.dummy "Employer" (some "C") ∉ (encodeInfer C4infer C4schema).cols :=
  have h := schema_conformance C4infer C4schema
  ⟨h.1,
   fun i => h.2.1 (ColId.dummy "Employer" (some "A")) (by decide) (by decide) i,
   fun hmem =>
     (by decide : ColId.dummy "Employer" (some "C") ∉ C4schema) ((h.2.2.1 _).mp hmem)⟩

/-- C9: training-mode encoding is deterministic — two tables with the
same columns, row count and cell contents encode to identical column sets
in identical order and identical cell values; the column list is the
numeric block (zero-filled) first, then the one-hot block with its
explicit missing-value indicators. -/
theorem encodeTrain_deterministic {t₁ t₂ : RawTable}
    (hc : t₁.cols = t₂.cols) (hn : t₁.nRows = t₂.nRows)
    (hnum : ∀ i nm, t₁.numCell i nm = t₂.numCell i nm)
    (hcat : ∀ i c, t₁.catCell i c = t₂.catCell i c) :
    encodeTrain t₁ = encodeTrain t₂ ∧
    (encodeTrain t₁).cols = (numericPresent t₁).map ColId.num ++ dummyCols t₁ := by
  have ht : t₁ = t₂ := by
    obtain ⟨c₁, n₁, f₁, g₁⟩ := t₁
    obtain ⟨c₂, n₂, f₂, g₂⟩ := t₂
    simp only at hc hn hnum hcat
    subst hc
    subst hn
    have hf : f₁ = f₂ := funext fun i => funext fun nm => hnum i nm
    have hg : g₁ = g₂ := funext fun i => funext fun c => hcat i c
    rw [hf, hg]
  rw [ht]
  exact ⟨rfl, rfl⟩

theorem encodeTrain_deterministic_witness :
    encodeTrain C9table = encodeTrain C9table ∧
    (encodeTrain C9table).cols = (numericPresent C9table).map ColId.num ++ dummyCols C9table :=
  encodeTrain_deterministic rfl rfl (fun _ _ => rfl) (fun _ _ => rfl)

/-! ## Claim theorems: missing-artifact errors (C8) -/

/-- C8: when the model artifact or the feature-schema artifact cannot be
located, prediction fails immediately: the interactive predictor returns
its missing-artifact exit, which carries no prediction, and the CLI
loader exits with an error, so no prediction — not even a partial one —
is attempted or emitted. -/
theorem missing_artifact_fatal {μ : Type} (fs : String → Bool)
    (loadFeatureCols : String → List ColId) (predictProba : FeatureMatrix → List Rat)
    (readCsv : String → RawTable) (loadModel : String → μ)
    (modelPath featuresPath csvPath : String)
    (h : fs modelPath = false ∨ fs featuresPath = false) :
    interactive_predict_from_csv fs loadFeatureCols predictProba readCsv
        modelPath featuresPath csvPath = .missingArtifact ∧
    (∀ probs, interactive_predict_from_csv fs loadFeatureCols predictProba readCsv
        modelPath featuresPath csvPath ≠ .predictions probs) ∧
    ∃ e, load_model_and_features fs loadModel loadFeatureCols modelPath featuresPath =
      .error e := by
  have hcond : (!fs modelPath || !fs featuresPath) = true := by
    rcases h with h | h <;> simp [h]
  refine ⟨?_, ?_, ?_⟩
  · simp [interactive_predict_from_csv, hcond]
  · intro probs
    simp [interactive_predict_from_csv, hcond]
  · by_cases hm : fs modelPath = false
    · exact ⟨.modelNotFound modelPath, by simp [load_model_and_features, hm]⟩
    · have hf : fs featuresPath = false := by
        rcases h with h | h
        · exact absurd h hm
        · exact h
      have hm' : fs modelPath = true := by
        rcases Bool.eq_false_or_eq_true (fs modelPath) with h'' | h''
        · exact h''
        · exact absurd h'' hm
      exact ⟨.featureFileNotFound featuresPath, by simp [load_model_and_features, hm', hf]⟩

theorem missing_artifact_fatal_witness :
    interactive_predict_from_csv (fun _ => false) (fun _ => []) (fun _ => [])
        (fun _ => ⟨[], 0, fun _ _ => none, fun _ _ => none⟩)
        "gb_model.pkl" "gb_features.pkl" "donors.csv" = .missingArtifact ∧
    (∀ probs, interactive_predict_from_csv (fun _ => false) (fun _ => []) (fun _ => [])
        (fun _ => ⟨[], 0, fun _ _ => none, fun _ _ => none⟩)
        "gb_model.pkl" "gb_features.pkl" "donors.csv" ≠ .predictions probs) ∧
    ∃ e, load_model_and_features (fun _ => false) (fun _ => (0 : Nat)) (fun _ => [])
        "gb_model.pkl" "gb_features.pkl" = .error e :=
  missing_artifact_fatal (fun _ => false) (fun _ => []) (fun _ => [])
    (fun _ => ⟨[], 0, fun _ _ => none, fun _ _ => none⟩) (fun _ => (0 : Nat))
    "gb_model.pkl" "gb_features.pkl" "donors.csv" (Or.inl rfl)

end HSM
